import Mathlib

/-!
# Verification of the Corvino signal-generation engine

A shallow embedding, over `ℚ`, of the deterministic core of the Corvino
trading-signal pipeline:

* `RiskCalculator` (`backend/risk_management/calculator.py`):
  `compute_levels`, `compute_dynamic_levels`, `position_size_pct`;
* support/resistance extraction and clustering
  (`backend/indicators/support_resistance.py`);
* `PatternDetector` (`backend/patterns/detector.py`);
* `FeatureBuilder` (`backend/ml_models/features.py`);
* `SignalGenerator.generate` / `generate_all`
  (`backend/signal_engine/generator.py`).

Python floats are modelled as exact rationals; `round(x, n)` is modelled by
round-half-to-even on the exact value.  External collaborators (the market
data fetcher, the indicator engine, the LLM analyzer, the trained ML model
and the news services) are modelled as parameters holding their returned
values, so each embedded function is the deterministic part of the source
downstream of those calls.
-/

namespace Corvino

/-- Round-half-to-even to an integer, the tie-breaking rule of Python's
built-in `round`. -/
def roundHalfEven (x : ℚ) : ℤ :=
  let f := ⌊x⌋
  let frac := x - f
  if frac < 1/2 then f
  else if 1/2 < frac then f + 1
  else if f % 2 = 0 then f else f + 1

/-- Python's `round(x, n)` for `n` decimal digits (half-to-even). -/
def pyRound (n : ℕ) (x : ℚ) : ℚ :=
  (roundHalfEven (x * 10 ^ n) : ℚ) / 10 ^ n

/-- Trade direction strings `"LONG" | "SHORT" | "NEUTRAL"` used throughout
the backend. -/
inductive Dir where
  | LONG
  | SHORT
  | NEUTRAL
deriving DecidableEq, Repr

/-- Constructor arguments of `RiskCalculator.__init__`. -/
structure RiskParams where
  atrMultSl : ℚ
  atrMultTp1 : ℚ
  atrMultTp2 : ℚ
  atrMultTp3 : ℚ
  maxRiskPctPerTrade : ℚ
deriving DecidableEq, Repr

/-- The default multipliers of `RiskCalculator.__init__`
(SL 2.0, TP 1.5/2.5/4.0, max risk 2.0%). -/
def defaultParams : RiskParams :=
  { atrMultSl := 2
    atrMultTp1 := 3/2
    atrMultTp2 := 5/2
    atrMultTp3 := 4
    maxRiskPctPerTrade := 2 }

/-- The tuple `(stop_loss, tp1, tp2, tp3, risk_reward)` returned by the risk
calculator methods. -/
structure Plan where
  sl : ℚ
  tp1 : ℚ
  tp2 : ℚ
  tp3 : ℚ
  rr : ℚ
deriving DecidableEq, Repr

/-- `RiskCalculator.compute_levels` (calculator.py lines 32-63): volatility
only stops and targets as fixed ATR multiples.  `direction.upper() == "LONG"`
selects the first branch, so `SHORT` and `NEUTRAL` take the second. -/
def computeLevels (p : RiskParams) (entry atr : ℚ) (direction : Dir) : Plan :=
  let atr := if atr ≤ 0 then entry * (2/100) else atr
  let slDist := p.atrMultSl * atr
  let tp1Dist := p.atrMultTp1 * atr
  let tp2Dist := p.atrMultTp2 * atr
  let tp3Dist := p.atrMultTp3 * atr
  let sl := if direction = Dir.LONG then entry - slDist else entry + slDist
  let tp1 := if direction = Dir.LONG then entry + tp1Dist else entry - tp1Dist
  let tp2 := if direction = Dir.LONG then entry + tp2Dist else entry - tp2Dist
  let tp3 := if direction = Dir.LONG then entry + tp3Dist else entry - tp3Dist
  let risk := |entry - sl|
  let rewardAvg := (tp1Dist + tp2Dist + tp3Dist) / 3
  let rr := if 0 < risk then rewardAvg / risk else 0
  ⟨sl, tp1, tp2, tp3, rr⟩

/-- `RiskCalculator.position_size_pct` (calculator.py lines 65-81). -/
def positionSizePct (p : RiskParams) (entry stopLoss riskPct : ℚ) : ℚ :=
  let riskPct := min riskPct p.maxRiskPctPerTrade
  let riskPerUnit := |entry - stopLoss|
  if riskPerUnit ≤ 0 then 0
  else min 100 (max (1/2) (pyRound 1 (riskPct / 100 * entry / riskPerUnit)))

/-- An order-block or fair-value-gap zone dict as built in
`SignalGenerator.generate` (generator.py lines 87-95):
`{"type": "bullish"|"bearish", "low": …, "high": …}`. -/
structure Zone where
  bullish : Bool
  low : ℚ
  high : ℚ
deriving DecidableEq, Repr

/-- The `while len(tps) < 3` filling loop of
`RiskCalculator.compute_dynamic_levels` (calculator.py lines 148-150 for
LONG with `step = atr`, lines 187-189 for SHORT with `step = -atr`):
repeatedly append `(tps[-1] if tps else entry) + step`. -/
def fillTargets (entry step : ℚ) (tps : List ℚ) : List ℚ :=
  if tps.length < 3 then
    fillTargets entry step (tps ++ [tps.getLast?.getD entry + step])
  else tps
termination_by 3 - tps.length
decreasing_by simp; omega

/-- `RiskCalculator.compute_dynamic_levels` (calculator.py lines 83-206):
level-aware stop and targets.  The multipliers 1.5 (max stop distance),
0.3 (minimum distance), 0.1 (stop buffer) and 1.0 (target fill step) are
literals in the source and do not come from the constructor parameters.
The indexing `tps[0], tps[1], tps[2]` is modelled with `List.getD`; the
fill loop guarantees at least three targets, so the defaults are never
used. -/
def computeDynamicLevels (entry atr : ℚ) (direction : Dir)
    (supports resistances : List ℚ)
    (orderBlocks fvgZones : List Zone) : Plan :=
  let atr := if atr ≤ 0 then entry * (2/100) else atr
  let maxSlDist := 3/2 * atr
  let minDist := 3/10 * atr
  if direction = Dir.LONG then
    -- stop candidates: supports, bullish order-block lows, bullish FVG lows
    let slCandidates :=
      supports.filter (fun s => s < entry)
      ++ ((orderBlocks.filter (fun z => z.bullish && decide (z.low < entry))).map Zone.low)
      ++ ((fvgZones.filter (fun z => z.bullish && decide (z.low < entry))).map Zone.low)
    let slSorted := List.insertionSort (· ≥ ·)
      (slCandidates.filter (fun s => minDist ≤ entry - s ∧ entry - s ≤ maxSlDist))
    let sl := match slSorted.head? with
      | some s => s - 1/10 * atr
      | none => entry - maxSlDist
    let validResistances := List.insertionSort (· ≤ ·) (resistances.filter (fun r => entry < r))
    let tps := fillTargets entry atr
      ((validResistances.filter (fun r => minDist ≤ r - entry)).take 3)
    let risk := |entry - sl|
    let tp1 := tps.getD 0 0
    let minReward := 3/2 * risk
    let tp1 := if |entry - tp1| < minReward then entry + minReward else tp1
    let rewardAvg := (|entry - tp1| + |entry - tps.getD 1 0| + |entry - tps.getD 2 0|) / 3
    ⟨sl, tp1, tps.getD 1 0, tps.getD 2 0, if 0 < risk then rewardAvg / risk else 0⟩
  else
    -- stop candidates: resistances, bearish order-block highs, bearish FVG highs
    let slCandidates :=
      resistances.filter (fun r => entry < r)
      ++ ((orderBlocks.filter (fun z => !z.bullish && decide (entry < z.high))).map Zone.high)
      ++ ((fvgZones.filter (fun z => !z.bullish && decide (entry < z.high))).map Zone.high)
    let slSorted := List.insertionSort (· ≤ ·)
      (slCandidates.filter (fun r => minDist ≤ r - entry ∧ r - entry ≤ maxSlDist))
    let sl := match slSorted.head? with
      | some r => r + 1/10 * atr
      | none => entry + maxSlDist
    let validSupports := List.insertionSort (· ≥ ·) (supports.filter (fun s => s < entry))
    let tps := fillTargets entry (-atr)
      ((validSupports.filter (fun s => minDist ≤ entry - s)).take 3)
    let risk := |entry - sl|
    let tp1 := tps.getD 0 0
    let minReward := 3/2 * risk
    let tp1 := if |entry - tp1| < minReward then entry - minReward else tp1
    let rewardAvg := (|entry - tp1| + |entry - tps.getD 1 0| + |entry - tps.getD 2 0|) / 3
    ⟨sl, tp1, tps.getD 1 0, tps.getD 2 0, if 0 < risk then rewardAvg / risk else 0⟩

/-! ## Support / resistance extraction (indicators/support_resistance.py) -/

/-- One OHLCV bar (a dataframe row).  Only the columns read by the embedded
code are modelled. -/
structure Bar where
  op : ℚ := 0
  high : ℚ
  low : ℚ
  close : ℚ
  volume : ℚ := 0
deriving DecidableEq, Repr

/-- The merge test of `cluster_levels`: `abs(lvl - c) / c <= proximity_pct`
(support_resistance.py line 51). -/
def nearLevel (prox lvl c : ℚ) : Bool :=
  decide (|lvl - c| / c ≤ prox)

/-- The clustering scan of `cluster_levels` (support_resistance.py lines
45-55): walk the sorted candidates, skip non-positive prices, and append a
level unless it is within the proximity threshold of an already kept
cluster representative. -/
def clusterScan (prox : ℚ) (clustered : List ℚ) : List ℚ → List ℚ
  | [] => clustered
  | lvl :: rest =>
    if lvl ≤ 0 then clusterScan prox clustered rest
    else if clustered.any (fun c => nearLevel prox lvl c) then clusterScan prox clustered rest
    else clusterScan prox (clustered ++ [lvl]) rest

/-- Sort key of `cluster_levels` line 57 (`key=lambda x: abs(x - ref)`).
Python's `list.sort` is stable and the clustered list it is applied to is
ascending in value, so the stable sort coincides with sorting by the
lexicographic order (distance to `ref`, then value). -/
def distRel (ref : ℚ) (a b : ℚ) : Prop :=
  |a - ref| < |b - ref| ∨ (|a - ref| = |b - ref| ∧ a ≤ b)

instance (ref : ℚ) : DecidableRel (distRel ref) := fun a b => by
  unfold distRel; infer_instance

instance (ref : ℚ) : IsTotal ℚ (distRel ref) where
  total a b := by
    unfold distRel
    rcases lt_trichotomy (|a - ref|) (|b - ref|) with h | h | h
    · exact Or.inl (Or.inl h)
    · rcases le_total a b with h' | h'
      · exact Or.inl (Or.inr ⟨h, h'⟩)
      · exact Or.inr (Or.inr ⟨h.symm, h'⟩)
    · exact Or.inr (Or.inl h)

instance (ref : ℚ) : IsTrans ℚ (distRel ref) where
  trans a b c hab hbc := by
    unfold distRel at *
    rcases hab with h | ⟨h, h'⟩ <;> rcases hbc with g | ⟨g, g'⟩
    · exact Or.inl (h.trans g)
    · exact Or.inl (g ▸ h)
    · exact Or.inl (h ▸ g)
    · exact Or.inr ⟨h.trans g, h'.trans g'⟩

instance (ref : ℚ) : IsAntisymm ℚ (distRel ref) where
  antisymm a b hab hba := by
    unfold distRel at *
    rcases hab with h | ⟨h, h'⟩ <;> rcases hba with g | ⟨g, g'⟩
    · exact absurd (h.trans g) (lt_irrefl _)
    · exact absurd h (g ▸ lt_irrefl _)
    · exact absurd g (h ▸ lt_irrefl _)
    · exact le_antisymm h' g'

/-- `cluster_levels` (support_resistance.py lines 41-58): dedup and sort the
candidates, run the clustering scan, then keep the `numLevels` clusters
nearest to the reference price.  `sorted(set(levels))` is modelled by
sorting the deduplicated list. -/
def clusterLevels (prox : ℚ) (numLevels : ℕ) (levels : List ℚ) (ref : ℚ) : List ℚ :=
  if levels.isEmpty then []
  else
    let sortedU := List.insertionSort (· ≤ ·) levels.dedup
    let clustered := clusterScan prox [] sortedU
    (List.insertionSort (distRel ref) clustered).take numLevels

/-- `compute_support_resistance` (support_resistance.py lines 10-62): local
extrema of the last `lookback` bars, clustered around the latest close.
`recent["close"].iloc[-1]` is modelled with a default that is unreachable
for the `lookback ≥ 1` used by all callers. -/
def computeSupportResistance (df : List Bar) (lookback numLevels : ℕ)
    (proximityPct : ℚ) : List ℚ × List ℚ :=
  if df.isEmpty ∨ df.length < lookback then ([], [])
  else
    let recent := df.drop (df.length - lookback)
    let high := recent.map Bar.high
    let low := recent.map Bar.low
    let close := (recent.map Bar.close).getLast?.getD 0
    let window := max 3 (lookback / 20)
    let n := high.length
    let resistances := (List.range' window (n - window - window)).filterMap
      (fun i =>
        let slice := (high.drop (i - window)).take (2 * window + 1)
        if high.getD i 0 = (slice.max?.getD 0) then some (high.getD i 0) else none)
    let supports := (List.range' window (n - window - window)).filterMap
      (fun i =>
        let slice := (low.drop (i - window)).take (2 * window + 1)
        if low.getD i 0 = (slice.min?.getD 0) then some (low.getD i 0) else none)
    (clusterLevels proximityPct numLevels supports close,
     clusterLevels proximityPct numLevels resistances close)

/-! ## Pattern detection (patterns/detector.py)

`PatternResult` (patterns/types.py) is modelled without its free-text
`description` field, which is a purely presentational string never read by
the engine.  `metadata`, a dict optionally carrying zone bounds
(`ob_low`/`ob_high` or `fvg_low`/`fvg_high`), is modelled as an optional
pair of bounds. -/

/-- `PatternResult` (patterns/types.py lines 25-31). -/
structure PatternResult where
  patternType : String
  confidence : ℚ
  levelOrPrice : Option ℚ := none
  metadata : Option (ℚ × ℚ) := none
deriving DecidableEq, Repr

/-- `np.mean` of a list (total: empty list gives `0`, unreachable at the
guarded call sites). -/
def listMean (l : List ℚ) : ℚ :=
  l.sum / l.length

/-- `np.max` of a list, with an unreachable default for the empty list. -/
def listMax (l : List ℚ) : ℚ :=
  (List.max? l).getD 0

/-- `np.min` of a list, with an unreachable default for the empty list. -/
def listMin (l : List ℚ) : ℚ :=
  (List.min? l).getD 0

/-- `xs[-k:]`, the last `k` elements. -/
def lastN (k : ℕ) (xs : List ℚ) : List ℚ :=
  xs.drop (xs.length - k)

/-- `np.polyfit(np.arange(n), ys, 1)[0]`: the exact least-squares slope of
`ys` against `x = 0, 1, …, n-1`. -/
def lsSlope (ys : List ℚ) : ℚ :=
  let n : ℚ := ys.length
  let xs := (List.range ys.length).map (fun i => (i : ℚ))
  let sx := xs.sum
  let sy := ys.sum
  let sxy := ((xs.zip ys).map (fun q => q.1 * q.2)).sum
  let sxx := (xs.map (fun x => x * x)).sum
  let d := n * sxx - sx * sx
  if d = 0 then 0 else (n * sxy - sx * sy) / d

/-- `PatternDetector._trendlines` (detector.py lines 42-71). -/
def trendlines (df : List Bar) : List PatternResult :=
  let closes := df.map Bar.close
  let n := closes.length
  if n < 20 then []
  else
    let slope20 := lsSlope (lastN 20 closes)
    let slope50 := if 50 ≤ n then lsSlope (lastN (min 50 n) closes) else slope20
    let avgPrice := listMean (lastN 20 closes)
    if 0 < slope20 ∧ 0 < slope50 then
      [{ patternType := "trendline_up"
         confidence := min (9/10) (1/2 + |slope20| / (avgPrice * (1/100)))
         levelOrPrice := some (closes.getLast?.getD 0) }]
    else if slope20 < 0 ∧ slope50 < 0 then
      [{ patternType := "trendline_down"
         confidence := min (9/10) (1/2 + |slope20| / (avgPrice * (1/100)))
         levelOrPrice := some (closes.getLast?.getD 0) }]
    else []

/-- `PatternDetector._breakout_fakeout` (detector.py lines 73-106).
`high[-25:-3]` is the last 25 elements with the final 3 removed. -/
def breakoutFakeout (df : List Bar) : List PatternResult :=
  let high := df.map Bar.high
  let low := df.map Bar.low
  let close := df.map Bar.close
  let n := close.length
  if n < 30 then []
  else
    let res := if 25 ≤ n then listMax ((lastN 25 high).take 22)
               else listMax (high.take (n - 3))
    let sup := if 25 ≤ n then listMin ((lastN 25 low).take 22)
               else listMin (low.take (n - 3))
    let lastClose := close.getD (n - 1) 0
    let prevClose := close.getD (n - 2) 0
    (if res < lastClose ∧ prevClose ≤ res then
      [{ patternType := "breakout_up", confidence := 3/4, levelOrPrice := some res }]
     else [])
    ++
    (if lastClose < sup ∧ sup ≤ prevClose then
      [{ patternType := "breakout_down", confidence := 3/4, levelOrPrice := some sup }]
     else [])

/-- `PatternDetector._double_top_bottom` (detector.py lines 108-144).
`np.argsort(half)[-2:]` selects the indices of the two largest entries; the
condition and the emitted level are symmetric in them, so the two largest
values (obtained here by a descending sort) determine the result. -/
def doubleTopBottom (df : List Bar) : List PatternResult :=
  let high := df.map Bar.high
  let low := df.map Bar.low
  let close := df.map Bar.close
  let n := close.length
  if n < 40 then []
  else
    let half := lastN (n / 2) high
    let hs := List.insertionSort (· ≥ ·) half
    let p1 := hs.getD 0 0
    let p2 := hs.getD 1 0
    let halfLow := lastN (n / 2) low
    let ls := List.insertionSort (· ≤ ·) halfLow
    let t1 := ls.getD 0 0
    let t2 := ls.getD 1 0
    (if |p1 - p2| / max p1 p2 < 1/100 ∧ close.getLast?.getD 0 < (p1 + p2) / 2 then
      [{ patternType := "double_top", confidence := 7/10, levelOrPrice := some ((p1 + p2) / 2) }]
     else [])
    ++
    (if |t1 - t2| / max t1 t2 < 1/100 ∧ (t1 + t2) / 2 < close.getLast?.getD 0 then
      [{ patternType := "double_bottom", confidence := 7/10, levelOrPrice := some ((t1 + t2) / 2) }]
     else [])

/-- `PatternDetector._head_shoulders` (detector.py lines 146-180). -/
def headShoulders (df : List Bar) : List PatternResult :=
  let high := df.map Bar.high
  let low := df.map Bar.low
  let n := high.length
  if n < 50 then []
  else
    let window := n / 3
    let p1 := listMax (high.take window)
    let p2 := listMax ((high.drop window).take window)
    let p3 := listMax (high.drop (2 * window))
    let t1 := listMin (low.take window)
    let t2 := listMin ((low.drop window).take window)
    let t3 := listMin (low.drop (2 * window))
    (if p1 < p2 ∧ p3 < p2 ∧ |p1 - p3| / max p1 p3 < 2/100 then
      [{ patternType := "head_shoulders", confidence := 13/20, levelOrPrice := some p2 }]
     else [])
    ++
    (if t2 < t1 ∧ t2 < t3 ∧ |t1 - t3| / max t1 t3 < 2/100 then
      [{ patternType := "head_shoulders_inverse", confidence := 13/20, levelOrPrice := some t2 }]
     else [])

/-- `PatternDetector._channel` (detector.py lines 182-209). -/
def channelPattern (df : List Bar) : List PatternResult :=
  let high := df.map Bar.high
  let low := df.map Bar.low
  let n := high.length
  if n < 30 then []
  else
    let slopeHigh := lsSlope high
    let slopeLow := lsSlope low
    let avg := listMean (df.map Bar.close)
    if 0 < slopeHigh ∧ 0 < slopeLow ∧ |slopeHigh - slopeLow| / avg < 1/1000 then
      [{ patternType := "channel_up", confidence := 3/5 }]
    else if slopeHigh < 0 ∧ slopeLow < 0 then
      [{ patternType := "channel_down", confidence := 3/5 }]
    else []

/-- `PatternDetector._range` (detector.py lines 211-230). -/
def rangePattern (df : List Bar) : List PatternResult :=
  let high := df.map Bar.high
  let low := df.map Bar.low
  let n := high.length
  if n < 20 then []
  else
    let range20 := listMax (lastN 20 high) - listMin (lastN 20 low)
    let avg := listMean (df.map Bar.close)
    if range20 / avg < 1/20 then
      [{ patternType := "range", confidence := 7/10, levelOrPrice := some avg }]
    else []

/-- `PatternDetector.detect_all` (detector.py lines 20-40): below 30 bars
nothing is emitted; otherwise every detector runs on the last `lookback`
bars. -/
def detectAll (lookback : ℕ) (df : List Bar) : List PatternResult :=
  if df.isEmpty ∨ df.length < 30 then []
  else
    let recent := df.drop (df.length - lookback)
    trendlines recent ++ breakoutFakeout recent ++ doubleTopBottom recent
      ++ headShoulders recent ++ channelPattern recent ++ rangePattern recent

/-! ## Feature extraction (ml_models/features.py) -/

/-- `BULLISH_PATTERNS` (features.py lines 11-14). -/
def bullishPatterns : List String :=
  ["trendline_up", "breakout_up", "double_bottom",
   "head_shoulders_inverse", "channel_up", "range"]

/-- `BEARISH_PATTERNS` (features.py lines 15-18). -/
def bearishPatterns : List String :=
  ["trendline_down", "breakout_down", "double_top",
   "head_shoulders", "channel_down"]

/-- A dataframe row restricted to the columns `FeatureBuilder` reads
(`INDICATOR_COLS`, features.py lines 28-32).  A column that is absent from
the dataframe or holds NaN at this row is `none`.  The `volume_ratio`
column is named `volRat` here. -/
structure IndRow where
  rsi : Option ℚ := none
  macd : Option ℚ := none
  macdSignal : Option ℚ := none
  macdHistogram : Option ℚ := none
  ema9 : Option ℚ := none
  ema21 : Option ℚ := none
  ema50 : Option ℚ := none
  sma20 : Option ℚ := none
  sma50 : Option ℚ := none
  atr : Option ℚ := none
  volRat : Option ℚ := none
  close : Option ℚ := none
  volume : Option ℚ := none
deriving DecidableEq, Repr, Inhabited

/-- The per-column encoding of `FeatureBuilder.build_from_df` (features.py
lines 54-64): a missing value becomes `0`; when `normalize` is set, the RSI
is mapped through `(rsi - 50) / 50` and the volume ratio through
`min(3, max(0, v)) / 3`. -/
def encodeCol (normalize : Bool) (col : String) (v : Option ℚ) : ℚ :=
  match v with
  | none => 0
  | some val =>
    if (col = "volume_ratio" ∨ col = "rsi") ∧ normalize then
      if col = "rsi" then (val - 50) / 50
      else if col = "volume_ratio" then min 3 (max 0 val) / 3
      else val
    else val

/-- `FeatureBuilder.build_from_df` (features.py lines 39-90), building one
feature vector from the last row of `df`.  `np.log` is transcendental, so
it enters the model as the parameter `log`; the claims settled below do not
depend on it.  A `None`/NaN previous close is mapped to return `0` as in
the source (`if prev and prev > 0`). -/
def buildFromDf (log : ℚ → ℚ) (normalize : Bool) (df : List IndRow)
    (patternTypes : Option (List String)) : List ℚ :=
  if df.length < 2 then List.replicate 18 0
  else
    let row := df.getLast?.getD default
    let indFeats :=
      [encodeCol normalize "rsi" row.rsi,
       encodeCol normalize "macd" row.macd,
       encodeCol normalize "macd_signal" row.macdSignal,
       encodeCol normalize "macd_histogram" row.macdHistogram,
       encodeCol normalize "ema_9" row.ema9,
       encodeCol normalize "ema_21" row.ema21,
       encodeCol normalize "ema_50" row.ema50,
       encodeCol normalize "sma_20" row.sma20,
       encodeCol normalize "sma_50" row.sma50,
       encodeCol normalize "atr" row.atr,
       encodeCol normalize "volume_ratio" row.volRat,
       encodeCol normalize "close" row.close,
       encodeCol normalize "volume" row.volume]
    let close := row.close.getD 0
    let rets :=
      if close ≠ 0 ∧ 0 < close then
        [1, 3, 5].map (fun k =>
          if k < df.length then
            match IndRow.close (df.getD (df.length - 1 - k) default) with
            | some p => if p ≠ 0 ∧ 0 < p then log (close / p) else 0
            | none => 0
          else 0)
      else [0, 0, 0]
    let counts :=
      match patternTypes with
      | some pts =>
        [(pts.countP (fun p => bullishPatterns.contains p) : ℚ),
         (pts.countP (fun p => bearishPatterns.contains p) : ℚ)]
      | none => [0, 0]
    indFeats ++ rets ++ counts

/-- The feature vector the encoder builds on the classifier's prediction
path: `MLPredictor.__init__` constructs `FeatureBuilder(normalize=False)`
(predictor.py line 28), and `MLPredictor.predict` calls its
`build_from_df` (predictor.py line 61). -/
def predictorFeatures (log : ℚ → ℚ) (df : List IndRow)
    (patternTypes : Option (List String)) : List ℚ :=
  buildFromDf log false df patternTypes

/-! ## Signal generation (signal_engine/generator.py) -/

/-- `SignalExplanation` / the explanation dict stored on a signal, after
`model_dump` and the optional ML enrichment of generator.py lines 165-168. -/
structure Explanation where
  summary : String
  technicalReasoning : List String := []
  patternReasoning : List String := []
  riskFactors : List String := []
  invalidationConditions : List String := []
  mlAgreement : Option Bool := none
  mlConfidence : Option ℚ := none
deriving DecidableEq, Repr

/-- `AIAnalysisResult`, the reasoning collaborator's verdict consumed by
`SignalGenerator.generate`. -/
structure AIResult where
  direction : Dir
  confidenceScore : ℚ
  explanation : Explanation
deriving DecidableEq, Repr

/-- `RawSignal` (signal_engine/schemas.py).  The generator always fills the
optional numeric fields, so they are plain rationals here. -/
structure RawSignal where
  asset : String
  timeframe : String
  direction : Dir
  entryPrice : ℚ
  stopLoss : ℚ
  takeProfit1 : ℚ
  takeProfit2 : ℚ
  takeProfit3 : ℚ
  positionSizePct : ℚ
  riskReward : ℚ
  invalidationConditions : Option String
  confidenceScore : ℚ
  explanation : Explanation
deriving DecidableEq, Repr

/-- `AI_WEIGHT` (generator.py line 20). -/
def AI_WEIGHT : ℚ := 3/5

/-- `ML_WEIGHT` (generator.py line 21). -/
def ML_WEIGHT : ℚ := 2/5

/-- The confidence-blending step of `SignalGenerator.generate`
(generator.py lines 130-136): when the ML model is loaded and produced a
prediction, agreement blends `0.6·ai + 0.4·ml` and disagreement applies
`max(25, ai - 15)`; either way the result is rounded to one decimal and
capped at 100.  Otherwise the AI confidence passes through unchanged. -/
def blendConfidence (aiConf : ℚ) (direction : Dir) (mlLoaded : Bool)
    (mlDirection : Option Dir) (mlConf : ℚ) : ℚ :=
  match mlLoaded, mlDirection with
  | true, some d =>
    let c := if d = direction then AI_WEIGHT * aiConf + ML_WEIGHT * mlConf
             else max 25 (aiConf - 15)
    min 100 (pyRound 1 c)
  | _, _ => aiConf

/-- The ATR selection of `SignalGenerator.generate` (generator.py line 59):
`metrics.get("atr") or (metrics.get("close", 0) * 0.02)` — Python's `or`
falls back when the ATR entry is absent or zero. -/
def atrOf (close0 : ℚ) (ma : Option ℚ) : ℚ :=
  match ma with
  | none => close0 * (2/100)
  | some a => if a = 0 then close0 * (2/100) else a

/-- The order-block / FVG extraction of `SignalGenerator.generate`
(generator.py lines 85-95), returning `(order_blocks, fvg_zones)`. -/
def extractZones (ps : List PatternResult) : List Zone × List Zone :=
  ps.foldl
    (fun acc p =>
      match p.metadata with
      | none => acc
      | some (lo, hi) =>
        if p.patternType = "order_block_bullish" then
          (acc.1 ++ [⟨true, lo, hi⟩], acc.2)
        else if p.patternType = "order_block_bearish" then
          (acc.1 ++ [⟨false, lo, hi⟩], acc.2)
        else if p.patternType = "fvg_bullish" then
          (acc.1, acc.2 ++ [⟨true, lo, hi⟩])
        else if p.patternType = "fvg_bearish" then
          (acc.1, acc.2 ++ [⟨false, lo, hi⟩])
        else acc)
    ([], [])

/-- `SignalGenerator.generate` (generator.py lines 41-184), parameterized
over the values returned by its collaborators: `dfLen` is the length of the
fetched OHLCV dataframe; `metricsClose`/`metricsAtr` are the relevant
entries of `get_latest_metrics`; `supports`/`resistances` are the
`compute_support_resistance` output; `patternResults` is the
`detect_all` output; `ai` is the analyzer verdict; `mlLoaded`,
`mlDirection` and `mlConf` are `self.ml.is_loaded` and the pair returned by
`self.ml.predict`.  `metrics.get("atr") or close * 0.02` falls back when
the ATR is absent or zero. -/
def generate (p : RiskParams) (asset timeframe : String) (dfLen : ℕ)
    (metricsClose metricsAtr : Option ℚ)
    (supports resistances : List ℚ)
    (patternResults : List PatternResult)
    (ai : AIResult) (mlLoaded : Bool) (mlDirection : Option Dir)
    (mlConf : ℚ) : Option RawSignal :=
  if dfLen < 50 then none
  else
    let close0 := metricsClose.getD 0
    let atr := atrOf close0 metricsAtr
    let zones := extractZones patternResults
    let planLong := computeDynamicLevels close0 atr Dir.LONG supports resistances zones.1 zones.2
    let planShort := computeDynamicLevels close0 atr Dir.SHORT supports resistances zones.1 zones.2
    let scenarios : Dir → Option Plan := fun d =>
      match d with
      | Dir.LONG => some planLong
      | Dir.SHORT => some planShort
      | Dir.NEUTRAL => none
    let direction := if ai.direction = Dir.NEUTRAL then Dir.LONG else ai.direction
    let confidence := blendConfidence ai.confidenceScore direction mlLoaded mlDirection mlConf
    if confidence < 25 then none
    else
      let entry := close0
      if entry ≤ 0 then none
      else
        let plan := match scenarios direction with
          | some pl => pl
          | none => computeLevels p entry atr direction
        let invalidation := String.intercalate "; " ai.explanation.invalidationConditions
        let expl :=
          if mlLoaded ∧ mlDirection.isSome then
            { ai.explanation with
              mlAgreement := some (mlDirection = some direction)
              mlConfidence := some mlConf }
          else ai.explanation
        some
          { asset := asset
            timeframe := timeframe
            direction := direction
            entryPrice := entry
            stopLoss := plan.sl
            takeProfit1 := plan.tp1
            takeProfit2 := plan.tp2
            takeProfit3 := plan.tp3
            positionSizePct := positionSizePct p entry plan.sl 1
            riskReward := pyRound 2 plan.rr
            invalidationConditions := if invalidation = "" then none else some invalidation
            confidenceScore := confidence
            explanation := expl }

/-- `max(consensus_signals, key=lambda s: s.confidence_score)` (generator.py
line 244): Python's `max` keeps the first element among ties. -/
def maxByConf (s : RawSignal) (rest : List RawSignal) : RawSignal :=
  rest.foldl (fun b x => if b.confidenceScore < x.confidenceScore then x else b) s

/-- The consensus enrichment of `generate_all` (generator.py lines 246-254):
append (or set, when the summary is empty/missing) the confirmation note
listing the agreeing timeframes. -/
def annotateBest (best : RawSignal) (consensus : List RawSignal) : RawSignal :=
  let confirming := consensus.map RawSignal.timeframe
  let note := "Signal confirmed by " ++ toString consensus.length
    ++ " timeframes: " ++ String.intercalate ", " confirming ++ "."
  let expl := best.explanation
  let summary := if expl.summary ≠ "" then expl.summary ++ " [" ++ note ++ "]" else note
  { best with explanation := { expl with summary := summary } }

/-- The per-asset aggregation of `SignalGenerator.generate_all`
(generator.py lines 225-256): group the surviving candidates by direction,
require at least three agreeing timeframes (LONG checked first), and
promote the highest-confidence member of the agreeing group, annotated with
the confirming timeframes. -/
def aggregateAsset (assetSignals : List RawSignal) : Option RawSignal :=
  if assetSignals.isEmpty then none
  else
    let longs := assetSignals.filter (fun s => s.direction = Dir.LONG)
    let shorts := assetSignals.filter (fun s => s.direction = Dir.SHORT)
    let consensus := if 3 ≤ longs.length then longs
                     else if 3 ≤ shorts.length then shorts
                     else []
    match consensus with
    | [] => none
    | s :: rest => some (annotateBest (maxByConf s rest) (s :: rest))

/-- `SignalGenerator.generate_all` (generator.py lines 186-258),
parameterized over the per-(asset, timeframe) generation outcome `gen`
(an exception during one timeframe is isolated and skipped, so a failure is
folded into `none` like a low-confidence result). -/
def generateAll (gen : String → String → Option RawSignal)
    (assets timeframes exclude : List String) : List RawSignal :=
  let cleanExclusions := exclude.map (fun a => (a.splitOn ":").headD a)
  assets.foldl
    (fun acc asset =>
      let cleanAsset := (asset.splitOn ":").headD asset
      if cleanExclusions.contains cleanAsset then acc
      else
        let assetSignals := timeframes.foldl
          (fun l tf =>
            match gen asset tf with
            | some s => l ++ [s]
            | none => l) []
        match aggregateAsset assetSignals with
        | some s => acc ++ [s]
        | none => acc)
    []

/-! ## Concrete example inputs used in counterexamples and witnesses -/

/-- The signal `generate` emits on the concrete scenario `S1`: close 100,
ATR 2, resistances 101/102/103, no supports or zones, AI verdict LONG with
confidence 50, ML model not loaded. -/
def sigS1 : RawSignal :=
  { asset := "BTC/USDT", timeframe := "1h", direction := Dir.LONG,
    entryPrice := 100, stopLoss := 97, takeProfit1 := 209/2,
    takeProfit2 := 102, takeProfit3 := 103, positionSizePct := 1/2,
    riskReward := 53/50, invalidationConditions := none,
    confidenceScore := 50, explanation := { summary := "s" } }

/-- The signal `generate` emits on the concrete scenario `S2`: close 100,
ATR 2, no levels at all, AI verdict NEUTRAL with confidence 50, ML model
not loaded. -/
def sigS2 : RawSignal :=
  { asset := "A", timeframe := "1h", direction := Dir.LONG,
    entryPrice := 100, stopLoss := 97, takeProfit1 := 209/2,
    takeProfit2 := 104, takeProfit3 := 106, positionSizePct := 1/2,
    riskReward := 161/100, invalidationConditions := none,
    confidenceScore := 50, explanation := { summary := "s" } }

/-- A synthetic surviving candidate used to exercise the consensus step. -/
def demoSignal (tf : String) (d : Dir) (c : ℚ) : RawSignal :=
  { asset := "A", timeframe := tf, direction := d, entryPrice := 100,
    stopLoss := 97, takeProfit1 := 103, takeProfit2 := 105,
    takeProfit3 := 108, positionSizePct := 1, riskReward := 2,
    invalidationConditions := none, confidenceScore := c,
    explanation := { summary := "sum" } }

/-! ## Helper lemmas -/

theorem fillTargets_of_ge (e s : ℚ) (l : List ℚ) (h : 3 ≤ l.length) :
    fillTargets e s l = l := by
  unfold fillTargets
  rw [if_neg (by omega)]

theorem fillTargets_step (e s : ℚ) (l : List ℚ) (h : l.length < 3) :
    fillTargets e s l = fillTargets e s (l ++ [l.getLast?.getD e + s]) := by
  conv_lhs => rw [fillTargets]
  rw [if_pos h]

theorem fillTargets_nil (e s : ℚ) :
    fillTargets e s [] = [e + s, e + s + s, e + s + s + s] := by
  rw [fillTargets_step _ _ _ (by simp), fillTargets_step _ _ _ (by simp),
    fillTargets_step _ _ _ (by simp), fillTargets_of_ge _ _ _ (by simp)]
  simp

theorem fillTargets_length_aux (e s : ℚ) :
    ∀ (n : ℕ) (l : List ℚ), 3 - l.length ≤ n → 3 ≤ (fillTargets e s l).length := by
  intro n
  induction n with
  | zero =>
    intro l h
    rw [fillTargets_of_ge _ _ _ (by omega)]
    omega
  | succ n ih =>
    intro l h
    by_cases hl : l.length < 3
    · rw [fillTargets_step _ _ _ hl]
      exact ih _ (by simp; omega)
    · rw [fillTargets_of_ge _ _ _ (by omega)]
      omega

theorem fillTargets_length (e s : ℚ) (l : List ℚ) :
    3 ≤ (fillTargets e s l).length :=
  fillTargets_length_aux e s 3 l (by omega)

theorem mem_of_head?_eq {α : Type} {l : List α} {a : α} (h : l.head? = some a) :
    a ∈ l := by
  cases l with
  | nil => simp at h
  | cons x xs =>
    simp at h
    simp [h]

theorem mem_of_getLast?_eq {α : Type} {l : List α} {a : α} (h : l.getLast? = some a) :
    a ∈ l := by
  cases l with
  | nil => simp at h
  | cons x xs =>
    rw [List.getLast?_eq_getLast (x :: xs) (by simp)] at h
    injection h with h
    rw [← h]
    exact List.getLast_mem _

theorem fillTargets_mem_aux (e s : ℚ) (P : ℚ → Prop)
    (hstep : ∀ x, P x → P (x + s)) (hbase : P (e + s)) :
    ∀ (n : ℕ) (l : List ℚ), 3 - l.length ≤ n → (∀ x ∈ l, P x) →
      ∀ x ∈ fillTargets e s l, P x := by
  intro n
  induction n with
  | zero =>
    intro l h hl
    rw [fillTargets_of_ge _ _ _ (by omega)]
    exact hl
  | succ n ih =>
    intro l h hl
    by_cases hlen : l.length < 3
    · rw [fillTargets_step _ _ _ hlen]
      refine ih _ (by simp; omega) ?_
      intro x hx
      rcases List.mem_append.mp hx with hx | hx
      · exact hl x hx
      · rcases List.mem_singleton.mp hx with rfl
        cases hg : l.getLast? with
        | none => simpa [hg] using hbase
        | some g =>
          simpa [hg] using hstep g (hl g (mem_of_getLast?_eq hg))
    · rw [fillTargets_of_ge _ _ _ (by omega)]
      exact hl

theorem fillTargets_mem (e s : ℚ) (P : ℚ → Prop)
    (hstep : ∀ x, P x → P (x + s)) (hbase : P (e + s)) (l : List ℚ)
    (hl : ∀ x ∈ l, P x) : ∀ x ∈ fillTargets e s l, P x :=
  fillTargets_mem_aux e s P hstep hbase 3 l (by omega) hl

theorem getD_mem {α : Type} (l : List α) (i : ℕ) (d : α) (h : i < l.length) :
    l.getD i d ∈ l := by
  rw [List.getD_eq_getElem l d h]
  exact List.getElem_mem h

/-- Core bound for the LONG branch of `computeDynamicLevels`: with a
positive volatility, every stop candidate at least `0.3·atr` below entry
and every selected target above entry, the chosen stop sits strictly below
entry and the (possibly widened) first target strictly above it. -/
theorem longCore (entry a : ℚ) (ha : 0 < a) (slCands tpsSel : List ℚ)
    (hcand : ∀ s ∈ slCands, 3/10 * a ≤ entry - s)
    (hsel : ∀ x ∈ tpsSel, entry < x) :
    (match slCands.head? with | some s => s - 1/10 * a | none => entry - 3/2 * a) < entry ∧
    entry < (if |entry - (fillTargets entry a tpsSel).getD 0 0| <
               3/2 * |entry - (match slCands.head? with | some s => s - 1/10 * a | none => entry - 3/2 * a)|
             then entry + 3/2 * |entry - (match slCands.head? with | some s => s - 1/10 * a | none => entry - 3/2 * a)|
             else (fillTargets entry a tpsSel).getD 0 0) := by
  have hsl : (match slCands.head? with | some s => s - 1/10 * a | none => entry - 3/2 * a) < entry := by
    cases hh : slCands.head? with
    | none => simp only []; linarith
    | some s0 =>
      simp only []
      have := hcand s0 (mem_of_head?_eq hh)
      linarith
  refine ⟨hsl, ?_⟩
  have htp0 : entry < (fillTargets entry a tpsSel).getD 0 0 := by
    refine fillTargets_mem entry a (fun x => entry < x)
      (fun x hx => by linarith) (by linarith) tpsSel hsel _ ?_
    exact getD_mem _ 0 0 (by have := fillTargets_length entry a tpsSel; omega)
  have hrisk : 0 < |entry - (match slCands.head? with
      | some s => s - 1/10 * a | none => entry - 3/2 * a)| := by
    rw [abs_of_pos (by linarith)]
    linarith
  split
  · linarith
  · exact htp0

/-- Mirror of `longCore` for the SHORT branch. -/
theorem shortCore (entry a : ℚ) (ha : 0 < a) (slCands tpsSel : List ℚ)
    (hcand : ∀ s ∈ slCands, 3/10 * a ≤ s - entry)
    (hsel : ∀ x ∈ tpsSel, x < entry) :
    entry < (match slCands.head? with | some s => s + 1/10 * a | none => entry + 3/2 * a) ∧
    (if |entry - (fillTargets entry (-a) tpsSel).getD 0 0| <
        3/2 * |entry - (match slCands.head? with | some s => s + 1/10 * a | none => entry + 3/2 * a)|
      then entry - 3/2 * |entry - (match slCands.head? with | some s => s + 1/10 * a | none => entry + 3/2 * a)|
      else (fillTargets entry (-a) tpsSel).getD 0 0) < entry := by
  have hsl : entry < (match slCands.head? with | some s => s + 1/10 * a | none => entry + 3/2 * a) := by
    cases hh : slCands.head? with
    | none => simp only []; linarith
    | some s0 =>
      simp only []
      have := hcand s0 (mem_of_head?_eq hh)
      linarith
  refine ⟨hsl, ?_⟩
  have htp0 : (fillTargets entry (-a) tpsSel).getD 0 0 < entry := by
    refine fillTargets_mem entry (-a) (fun x => x < entry)
      (fun x hx => by linarith) (by linarith) tpsSel hsel _ ?_
    exact getD_mem _ 0 0 (by have := fillTargets_length entry (-a) tpsSel; omega)
  have hrisk : 0 < |entry - (match slCands.head? with
      | some s => s + 1/10 * a | none => entry + 3/2 * a)| := by
    rw [abs_of_neg (by linarith)]
    linarith
  split
  · linarith
  · exact htp0

/-- For a positive entry the LONG dynamic plan always has its stop strictly
below entry and its first target strictly above it, whatever the level and
zone inputs. -/
theorem dynLong_bounds (entry atr : ℚ) (he : 0 < entry)
    (sup res : List ℚ) (obs fvgs : List Zone) :
    (computeDynamicLevels entry atr Dir.LONG sup res obs fvgs).sl < entry ∧
      entry < (computeDynamicLevels entry atr Dir.LONG sup res obs fvgs).tp1 := by
  have ha : 0 < (if atr ≤ 0 then entry * (2/100) else atr) := by
    split
    · positivity
    · linarith [not_le.mp (by assumption)]
  unfold computeDynamicLevels
  rw [if_pos rfl]
  refine longCore entry _ ha _ _ ?_ ?_
  · intro s hs
    have hmem := (List.mem_filter.mp ((List.mem_insertionSort _).mp hs)).2
    simp only [decide_eq_true_eq] at hmem
    exact hmem.1
  · intro x hx
    have hx1 := (List.mem_filter.mp (List.mem_of_mem_take hx)).1
    have hx2 := (List.mem_filter.mp ((List.mem_insertionSort _).mp hx1)).2
    simpa using hx2

/-- For a positive entry the SHORT dynamic plan always has its stop strictly
above entry and its first target strictly below it. -/
theorem dynShort_bounds (entry atr : ℚ) (he : 0 < entry)
    (sup res : List ℚ) (obs fvgs : List Zone) :
    (computeDynamicLevels entry atr Dir.SHORT sup res obs fvgs).tp1 < entry ∧
      entry < (computeDynamicLevels entry atr Dir.SHORT sup res obs fvgs).sl := by
  have ha : 0 < (if atr ≤ 0 then entry * (2/100) else atr) := by
    split
    · positivity
    · linarith [not_le.mp (by assumption)]
  unfold computeDynamicLevels
  rw [if_neg (by simp)]
  have h := shortCore entry _ ha
    ((res.filter (fun r => entry < r)
      ++ ((obs.filter (fun z => !z.bullish && decide (entry < z.high))).map Zone.high)
      ++ ((fvgs.filter (fun z => !z.bullish && decide (entry < z.high))).map Zone.high)).filter
        (fun r => 3/10 * (if atr ≤ 0 then entry * (2/100) else atr) ≤ r - entry ∧
          r - entry ≤ 3/2 * (if atr ≤ 0 then entry * (2/100) else atr)) |>
        List.insertionSort (· ≤ ·))
    (((List.insertionSort (· ≥ ·) (sup.filter (fun s => s < entry))).filter
        (fun s => 3/10 * (if atr ≤ 0 then entry * (2/100) else atr) ≤ entry - s)).take 3)
    ?_ ?_
  · exact ⟨h.2, h.1⟩
  · intro s hs
    have hmem := (List.mem_filter.mp ((List.mem_insertionSort _).mp hs)).2
    simp only [decide_eq_true_eq] at hmem
    exact hmem.1
  · intro x hx
    have hx1 := (List.mem_filter.mp (List.mem_of_mem_take hx)).1
    have hx2 := (List.mem_filter.mp ((List.mem_insertionSort _).mp hx1)).2
    simpa using hx2

/-- Characterization of the fields of any signal `generate` emits: the
entry is the (positive) latest close, the direction is the NEUTRAL-collapsed
AI direction, the confidence is the blended confidence, and the stop and
first target come from the dynamic plan of the chosen direction. -/
theorem generate_some_fields (p : RiskParams) (asset tf : String) (dfLen : ℕ)
    (mc ma : Option ℚ) (sup res : List ℚ) (pats : List PatternResult)
    (ai : AIResult) (mlL : Bool) (mlD : Option Dir) (mlC : ℚ) (s : RawSignal)
    (hs : generate p asset tf dfLen mc ma sup res pats ai mlL mlD mlC = some s) :
    0 < mc.getD 0 ∧
    s.entryPrice = mc.getD 0 ∧
    s.direction = (if ai.direction = Dir.NEUTRAL then Dir.LONG else ai.direction) ∧
    s.confidenceScore = blendConfidence ai.confidenceScore
      (if ai.direction = Dir.NEUTRAL then Dir.LONG else ai.direction) mlL mlD mlC ∧
    s.stopLoss = (computeDynamicLevels (mc.getD 0) (atrOf (mc.getD 0) ma)
      s.direction sup res (extractZones pats).1 (extractZones pats).2).sl ∧
    s.takeProfit1 = (computeDynamicLevels (mc.getD 0) (atrOf (mc.getD 0) ma)
      s.direction sup res (extractZones pats).1 (extractZones pats).2).tp1 := by
  rcases hd : ai.direction with _ | _ | _ <;>
  · simp only [generate, hd, reduceCtorEq, reduceIte, if_false, if_true] at hs
    split at hs
    case isTrue => exact absurd hs (by simp)
    case isFalse h50 =>
      split at hs
      case isTrue => exact absurd hs (by simp)
      case isFalse hconf =>
        split at hs
        case isTrue => exact absurd hs (by simp)
        case isFalse hentry =>
          have hEq := Option.some.inj hs
          refine ⟨by linarith [not_le.mp hentry], ?_, ?_, ?_, ?_, ?_⟩ <;>
            simp only [← hEq, hd, reduceCtorEq, reduceIte, if_false, if_true]


theorem clusterScan_shape (prox : ℚ) :
    ∀ (l acc : List ℚ), ∃ t, clusterScan prox acc l = acc ++ t ∧ t.Sublist l := by
  intro l
  induction l with
  | nil =>
    intro acc
    exact ⟨[], by simp [clusterScan]⟩
  | cons x xs ih =>
    intro acc
    unfold clusterScan
    split
    · obtain ⟨t, ht, hsub⟩ := ih acc
      exact ⟨t, ht, hsub.cons x⟩
    · split
      · obtain ⟨t, ht, hsub⟩ := ih acc
        exact ⟨t, ht, hsub.cons x⟩
      · obtain ⟨t, ht, hsub⟩ := ih (acc ++ [x])
        exact ⟨x :: t, by rw [ht]; simp, hsub.cons₂ x⟩

theorem clusterScan_pairwise (prox : ℚ) :
    ∀ (l acc : List ℚ), acc.Pairwise (fun a b => nearLevel prox b a = false) →
      (clusterScan prox acc l).Pairwise (fun a b => nearLevel prox b a = false) := by
  intro l
  induction l with
  | nil =>
    intro acc h
    simpa [clusterScan] using h
  | cons x xs ih =>
    intro acc h
    unfold clusterScan
    split
    · exact ih acc h
    · split
      case isTrue => exact ih acc h
      case isFalse hany =>
        refine ih (acc ++ [x]) ?_
        rw [List.pairwise_append]
        refine ⟨h, List.pairwise_singleton _ _, ?_⟩
        intro a ha b hb
        rcases List.mem_singleton.mp hb with rfl
        rw [Bool.eq_false_iff]
        intro hxa
        exact hany (List.any_eq_true.mpr ⟨a, ha, hxa⟩)

theorem clusterScan_pos (prox : ℚ) :
    ∀ (l acc : List ℚ), ∀ y ∈ clusterScan prox acc l, y ∈ acc ∨ 0 < y := by
  intro l
  induction l with
  | nil =>
    intro acc y hy
    exact Or.inl (by simpa [clusterScan] using hy)
  | cons x xs ih =>
    intro acc y hy
    rw [clusterScan] at hy
    split at hy
    · exact ih acc y hy
    · split at hy
      case isTrue => exact ih acc y hy
      case isFalse hx _ =>
        rcases ih (acc ++ [x]) y hy with hmem | hpos
        · rcases List.mem_append.mp hmem with hmem | hmem
          · exact Or.inl hmem
          · rcases List.mem_singleton.mp hmem with rfl
            exact Or.inr (lt_of_not_le hx)
        · exact Or.inr hpos

theorem clusterScan_id (prox : ℚ) :
    ∀ (l acc : List ℚ), (∀ x ∈ l, 0 < x) →
      (∀ x ∈ l, ∀ c ∈ acc, nearLevel prox x c = false) →
      l.Pairwise (fun a b => nearLevel prox b a = false) →
      clusterScan prox acc l = acc ++ l := by
  intro l
  induction l with
  | nil =>
    intro acc _ _ _
    simp [clusterScan]
  | cons x xs ih =>
    intro acc hpos hfar hpw
    unfold clusterScan
    have hany : ¬ (acc.any fun c => nearLevel prox x c) = true := by
      intro hany
      obtain ⟨c, hc, hnear⟩ := List.any_eq_true.mp hany
      rw [hfar x (List.mem_cons_self _ _) c hc] at hnear
      exact Bool.false_ne_true hnear
    have hfar2 : ∀ y ∈ xs, ∀ c ∈ acc ++ [x], nearLevel prox y c = false := by
      intro y hy c hc
      rcases List.mem_append.mp hc with hc | hc
      · exact hfar y (List.mem_cons_of_mem _ hy) c hc
      · rcases List.mem_singleton.mp hc with rfl
        exact (List.pairwise_cons.mp hpw).1 y hy
    rw [if_neg (not_le.mpr (hpos x (List.mem_cons_self _ _))), if_neg hany,
      ih (acc ++ [x]) (fun y hy => hpos y (List.mem_cons_of_mem _ hy)) hfar2 hpw.of_cons]
    simp

theorem pairwise_of_sorted_of_rel {R : ℚ → ℚ → Prop} {L : List ℚ}
    (hs : L.Sorted (· < ·)) (h : ∀ a b, a ∈ L → b ∈ L → a < b → R a b) :
    L.Pairwise R := by
  rw [List.pairwise_iff_get]
  intro i j hij
  exact h _ _ (L.get_mem _ _) (L.get_mem _ _) (hs.rel_get_of_lt hij)

theorem rel_of_pairwise_of_sorted {R : ℚ → ℚ → Prop} {L : List ℚ}
    (hs : L.Sorted (· < ·)) (hp : L.Pairwise R) :
    ∀ a b, a ∈ L → b ∈ L → a < b → R a b := by
  intro a b ha hb hab
  obtain ⟨i, hi⟩ := List.mem_iff_get.mp ha
  obtain ⟨j, hj⟩ := List.mem_iff_get.mp hb
  rcases lt_trichotomy i j with hij | hij | hij
  · subst hi
    subst hj
    exact List.pairwise_iff_get.mp hp i j hij
  · exfalso
    subst hi
    subst hj
    rw [hij] at hab
    exact lt_irrefl _ hab
  · exfalso
    have := hs.rel_get_of_lt hij
    subst hi
    subst hj
    exact lt_irrefl _ (hab.trans this)

/-! ## Theorems -/

/-- Concrete evaluation: the LONG dynamic plan for scenario `S1`
(close 100, ATR 2, resistances 101/102/103).  The three resistances are all
within `1.5·risk` of entry, so TP1 is widened to `100 + 1.5·3 = 104.5`,
above TP2 and TP3, and the averaged risk/reward drops to `19/18 < 1.5`. -/
theorem dynEvalS1 :
    computeDynamicLevels 100 2 Dir.LONG [] [101, 102, 103] [] [] =
      ⟨97, 209/2, 102, 103, 19/18⟩ := by
  unfold computeDynamicLevels
  norm_num [List.insertionSort, List.orderedInsert, List.filter]
  rw [fillTargets_of_ge _ _ _ (by norm_num)]
  norm_num [Plan.mk.injEq, abs_of_pos]

/-- Concrete evaluation: the LONG dynamic plan with no levels at all
(scenario `S2`): ATR-filled targets 102/104/106, TP1 widened to 104.5. -/
theorem dynEvalS2 :
    computeDynamicLevels 100 2 Dir.LONG [] [] [] [] =
      ⟨97, 209/2, 104, 106, 29/18⟩ := by
  unfold computeDynamicLevels
  norm_num [List.insertionSort, List.orderedInsert, List.filter, fillTargets_nil]
  norm_num [Plan.mk.injEq, abs_of_pos]

/-- Concrete evaluation of `generate` on scenario `S1` (AI verdict LONG,
confidence 50, ML not loaded): the emitted signal is `sigS1`, whose
risk/reward `1.06` is below 1.5 and whose TP1 `104.5` exceeds TP2 `102`. -/
theorem genEvalS1 :
    generate defaultParams "BTC/USDT" "1h" 200 (some 100) (some 2) [] [101, 102, 103] []
      ⟨Dir.LONG, 50, { summary := "s" }⟩ false none 0 = some sigS1 := by
  unfold generate
  norm_num [blendConfidence, extractZones, atrOf, dynEvalS1, positionSizePct, defaultParams,
    pyRound, roundHalfEven, Int.floor_eq_iff, String.intercalate, sigS1, RawSignal.mk.injEq]

/-- Concrete evaluation of `generate` on scenario `S2` (AI verdict NEUTRAL,
confidence 50, ML not loaded, no levels): the emitted signal is `sigS2`,
whose direction is LONG. -/
theorem genEvalS2 :
    generate defaultParams "A" "1h" 200 (some 100) (some 2) [] [] []
      ⟨Dir.NEUTRAL, 50, { summary := "s" }⟩ false none 0 = some sigS2 := by
  unfold generate
  norm_num [blendConfidence, extractZones, atrOf, dynEvalS2, positionSizePct, defaultParams,
    pyRound, roundHalfEven, Int.floor_eq_iff, String.intercalate, sigS2, RawSignal.mk.injEq]

/-- C6: `cluster_levels` is idempotent for every proximity threshold,
cluster count, candidate list and reference price: re-clustering an
already-clustered level list returns it unchanged.  Survivors of the scan
are pairwise farther apart than the threshold, so a second scan keeps all
of them, and re-sorting the (already distance-sorted, duplicate-free) list
reproduces it. -/
theorem C6_cluster_idempotent (prox : ℚ) (k : ℕ) (levels : List ℚ) (ref : ℚ) :
    clusterLevels prox k (clusterLevels prox k levels ref) ref =
      clusterLevels prox k levels ref := by
  by_cases h0 : levels.isEmpty
  · have h1 : clusterLevels prox k levels ref = [] := by
      unfold clusterLevels
      rw [if_pos h0]
    rw [h1]
    unfold clusterLevels
    simp
  · have hlev : levels.isEmpty = false := eq_false_of_ne_true h0
    have hfirst : clusterLevels prox k levels ref =
        (List.insertionSort (distRel ref)
          (clusterScan prox [] (List.insertionSort (· ≤ ·) levels.dedup))).take k := by
      unfold clusterLevels
      rw [if_neg (by simp [hlev])]
    set sortedU := List.insertionSort (· ≤ ·) levels.dedup with hsortedU
    set out1 := clusterScan prox [] sortedU with hout1
    set out := (List.insertionSort (distRel ref) out1).take k with houtdef
    rw [hfirst]
    by_cases hout : out = []
    · rw [hout]
      unfold clusterLevels
      simp
    · -- basic facts about the first pass
      obtain ⟨t1, ht1, hsub1⟩ := clusterScan_shape prox sortedU []
      have hout1sub : out1.Sublist sortedU := by
        rw [hout1, ht1]
        simpa using hsub1
      have hUsortedLe : sortedU.Sorted (· ≤ ·) := List.sorted_insertionSort _ _
      have hUnodup : sortedU.Nodup :=
        (List.perm_insertionSort _ _).nodup_iff.mpr levels.nodup_dedup
      have hUsortedLt : sortedU.Sorted (· < ·) := hUsortedLe.lt_of_le hUnodup
      have hout1sortedLt : out1.Sorted (· < ·) := hUsortedLt.sublist hout1sub
      have hout1nodup : out1.Nodup := hout1sub.nodup hUnodup
      have hout1pw : out1.Pairwise (fun a b => nearLevel prox b a = false) :=
        clusterScan_pairwise prox sortedU [] (List.Pairwise.nil)
      have hout1pos : ∀ y ∈ out1, 0 < y := by
        intro y hy
        rcases clusterScan_pos prox sortedU [] y hy with h | h
        · simp at h
        · exact h
      have hrel : ∀ a b, a ∈ out1 → b ∈ out1 → a < b → nearLevel prox b a = false :=
        rel_of_pairwise_of_sorted hout1sortedLt hout1pw
      -- facts about `out`
      have houtsub : out.Sublist (List.insertionSort (distRel ref) out1) := by
        rw [houtdef]
        exact List.take_sublist _ _
      have houtmem : ∀ y ∈ out, y ∈ out1 := by
        intro y hy
        exact (List.perm_insertionSort (distRel ref) out1).subset (houtsub.subset hy)
      have houtnodup : out.Nodup :=
        houtsub.nodup ((List.perm_insertionSort (distRel ref) out1).nodup_iff.mpr hout1nodup)
      have houtsorted : out.Sorted (distRel ref) :=
        (List.sorted_insertionSort _ _).sublist houtsub
      -- the second pass
      have houtEmpty : out.isEmpty = false := by
        cases hc : out.isEmpty
        · rfl
        · exact absurd (by simpa using hc) hout
      simp only [clusterLevels, houtEmpty, Bool.false_eq_true, if_false]
      rw [List.dedup_eq_self.mpr houtnodup]
      set sortedU2 := List.insertionSort (· ≤ ·) out with hsortedU2
      have hU2perm : sortedU2.Perm out := List.perm_insertionSort _ _
      have hU2nodup : sortedU2.Nodup := hU2perm.nodup_iff.mpr houtnodup
      have hU2sortedLt : sortedU2.Sorted (· < ·) :=
        (List.sorted_insertionSort _ _).lt_of_le hU2nodup
      have hU2mem : ∀ y ∈ sortedU2, y ∈ out1 := fun y hy => houtmem y (hU2perm.subset hy)
      have hscan2 : clusterScan prox [] sortedU2 = sortedU2 := by
        have h := clusterScan_id prox sortedU2 []
          (fun y hy => hout1pos y (hU2mem y hy))
          (by intro y hy c hc; simp at hc)
          (pairwise_of_sorted_of_rel hU2sortedLt
            (fun a b ha hb hab => hrel a b (hU2mem a ha) (hU2mem b hb) hab))
        simpa using h
      rw [hscan2]
      have hsortEq : List.insertionSort (distRel ref) sortedU2 = out := by
        refine List.eq_of_perm_of_sorted ((List.perm_insertionSort _ _).trans hU2perm) ?_ houtsorted
        exact List.sorted_insertionSort _ _
      rw [hsortEq]
      have hlen : out.length ≤ k := by
        rw [houtdef]
        exact List.length_take_le _ _
      exact List.take_of_length_le hlen

/-- C5: in volatility-only mode with the default multipliers,
`compute_levels(entry=100, atr=2, LONG)` returns stop 96, targets
103/105/108 and risk/reward `(3+5+8)/3/4 = 4/3 ≈ 1.333`. -/
theorem C5_volatility_example :
    computeLevels defaultParams 100 2 Dir.LONG =
      ⟨96, 103, 105, 108, 4/3⟩ ∧ (4/3 : ℚ) = (3 + 5 + 8) / 3 / 4 := by
  constructor
  · norm_num [computeLevels, defaultParams, Plan.mk.injEq, abs_sub_comm]
  · norm_num

/-- C10: for every positive entry, every ATR (the non-positive ones fall
back to 2% of entry) and every direction, `compute_levels` with the default
multipliers yields risk/reward exactly `(1.5+2.5+4)/(3·2) = 4/3`, which is
strictly below the 1.5 minimum. -/
theorem C10_constant_rr (entry atr : ℚ) (direction : Dir) (h : 0 < entry) :
    (computeLevels defaultParams entry atr direction).rr = 4/3 ∧
      (computeLevels defaultParams entry atr direction).rr < 3/2 := by
  have ha : 0 < (if atr ≤ 0 then entry * (2/100) else atr) := by
    split
    · positivity
    · linarith [not_le.mp (by assumption)]
  set a := if atr ≤ 0 then entry * (2/100) else atr with hadef
  have key : (computeLevels defaultParams entry atr direction).rr = 4/3 := by
    unfold computeLevels defaultParams
    rw [← hadef]
    rcases direction <;> simp only [reduceCtorEq, if_true, if_false, reduceIte]
    · have h1 : entry - (entry - 2 * a) = 2 * a := by ring
      rw [h1, abs_of_pos (by linarith)]
      rw [if_pos (by linarith)]
      field_simp
      ring
    · have h1 : entry - (entry + 2 * a) = -(2 * a) := by ring
      rw [h1, abs_neg, abs_of_pos (by linarith)]
      rw [if_pos (by linarith)]
      field_simp
      ring
    · have h1 : entry - (entry + 2 * a) = -(2 * a) := by ring
      rw [h1, abs_neg, abs_of_pos (by linarith)]
      rw [if_pos (by linarith)]
      field_simp
      ring
  exact ⟨key, by rw [key]; norm_num⟩

/-- Witness for `C10_constant_rr` at `entry = 100`, `atr = -1` (exercising
the ATR fallback), direction SHORT. -/
theorem C10_constant_rr_witness :
    (0 : ℚ) < 100 ∧
      ((computeLevels defaultParams 100 (-1) Dir.SHORT).rr = 4/3 ∧
        (computeLevels defaultParams 100 (-1) Dir.SHORT).rr < 3/2) :=
  ⟨by norm_num, C10_constant_rr 100 (-1) Dir.SHORT (by norm_num)⟩

/-- C3 counterexample: with reasoning confidence 70 and an agreeing
predictor confidence of 80.1 (a value `MLPredictor.predict`, which rounds
to one decimal, can return), the code's final confidence is
`min(100, round(0.6·70 + 0.4·80.1, 1)) = 74.0`, not the claimed
`0.6·70 + 0.4·80.1 = 74.04`. -/
theorem C3_counterexample :
    blendConfidence 70 Dir.LONG true (some Dir.LONG) (801/10) = 74 ∧
      ¬ (blendConfidence 70 Dir.LONG true (some Dir.LONG) (801/10) =
          AI_WEIGHT * 70 + ML_WEIGHT * (801/10)) := by
  have h : blendConfidence 70 Dir.LONG true (some Dir.LONG) (801/10) = 74 := by
    norm_num [blendConfidence, AI_WEIGHT, ML_WEIGHT, pyRound, roundHalfEven,
      Int.floor_eq_iff]
  refine ⟨h, ?_⟩
  rw [h]
  norm_num [AI_WEIGHT, ML_WEIGHT]

/-- C3 amended: when the predictor is loaded and made a prediction,
agreement gives `min(100, round(0.6·r + 0.4·p, 1))` and disagreement
`min(100, round(max(25, r - 15), 1))`; without a loaded predictor or a
prediction the reasoning confidence passes through unchanged.  On the
spec's examples the claimed values hold: 70 and 80 blend to 74, and 70
with disagreement becomes 55. -/
theorem C3_amended :
    (∀ (r p : ℚ) (d dir : Dir),
        blendConfidence r dir true (some d) p =
          if d = dir then min 100 (pyRound 1 (AI_WEIGHT * r + ML_WEIGHT * p))
          else min 100 (pyRound 1 (max 25 (r - 15)))) ∧
    (∀ (r p : ℚ) (dir : Dir) (mlDir : Option Dir),
        blendConfidence r dir false mlDir p = r) ∧
    (∀ (r p : ℚ) (dir : Dir) (ml : Bool),
        blendConfidence r dir ml none p = r) ∧
    blendConfidence 70 Dir.LONG true (some Dir.LONG) 80 = 74 ∧
    blendConfidence 70 Dir.LONG true (some Dir.SHORT) 80 = 55 := by
  have h1 : ∀ (r p : ℚ) (d dir : Dir),
      blendConfidence r dir true (some d) p =
        if d = dir then min 100 (pyRound 1 (AI_WEIGHT * r + ML_WEIGHT * p))
        else min 100 (pyRound 1 (max 25 (r - 15))) := by
    intro r p d dir
    unfold blendConfidence
    by_cases hd : d = dir
    · simp [hd]
    · simp [hd]
  refine ⟨h1, fun r p dir mlDir => rfl, fun r p dir ml => by cases ml <;> rfl, ?_, ?_⟩
  · rw [h1, if_pos rfl]
    norm_num [AI_WEIGHT, ML_WEIGHT, pyRound, roundHalfEven, Int.floor_eq_iff]
  · rw [h1, if_neg (by decide)]
    norm_num [pyRound, roundHalfEven, Int.floor_eq_iff]

/-- C7: with fewer than 30 bars `detect_all` emits no pattern match, and
with fewer than `lookback = 100` bars `compute_support_resistance` returns
two empty level lists. -/
theorem C7_insufficient_data :
    (∀ df : List Bar, df.length < 30 → detectAll 100 df = []) ∧
    (∀ df : List Bar, df.length < 100 →
      computeSupportResistance df 100 5 (1/500) = ([], [])) := by
  constructor
  · intro df h
    unfold detectAll
    rw [if_pos (Or.inr h)]
  · intro df h
    unfold computeSupportResistance
    rw [if_pos (Or.inr h)]

/-- Witness for `C7_insufficient_data`: a 29-bar window yields no patterns
and a 99-bar window yields no levels. -/
theorem C7_insufficient_data_witness :
    detectAll 100 (List.replicate 29 { high := 1, low := 0, close := 1 }) = [] ∧
      computeSupportResistance (List.replicate 99 { high := 1, low := 0, close := 1 })
        100 5 (1/500) = ([], []) :=
  ⟨C7_insufficient_data.1 _ (by simp), C7_insufficient_data.2 _ (by simp)⟩

/-- C1 counterexample: on scenario `S1` (AI confidence 50, valid entry 100,
chosen LONG plan with risk/reward `19/18 ≈ 1.06 < 1.5`), `generate` emits a
signal whose `risk_reward` is `1.06`; there is no risk/reward filter, so
the claim that a candidate with risk/reward below 1.5 is discarded is
false. -/
theorem C1_counterexample :
    Option.map RawSignal.riskReward
      (generate defaultParams "BTC/USDT" "1h" 200 (some 100) (some 2) [] [101, 102, 103] []
        ⟨Dir.LONG, 50, { summary := "s" }⟩ false none 0) = some (53/50) ∧
      (53/50 : ℚ) < 3/2 := by
  rw [genEvalS1]
  constructor
  · rfl
  · norm_num

/-- C1 amended: `generate` discards a candidate exactly on the two guards
it implements — blended confidence below 25, or a non-positive entry price
(a short dataframe also yields nothing); it never checks the plan's
risk/reward. -/
theorem C1_amended (p : RiskParams) (asset tf : String) (dfLen : ℕ)
    (mc ma : Option ℚ) (sup res : List ℚ) (pats : List PatternResult)
    (ai : AIResult) (mlL : Bool) (mlD : Option Dir) (mlC : ℚ)
    (h : blendConfidence ai.confidenceScore
        (if ai.direction = Dir.NEUTRAL then Dir.LONG else ai.direction) mlL mlD mlC < 25 ∨
      mc.getD 0 ≤ 0) :
    generate p asset tf dfLen mc ma sup res pats ai mlL mlD mlC = none := by
  simp only [generate]
  by_cases h50 : dfLen < 50
  · rw [if_pos h50]
  · rw [if_neg h50]
    by_cases hcn : blendConfidence ai.confidenceScore
        (if ai.direction = Dir.NEUTRAL then Dir.LONG else ai.direction) mlL mlD mlC < 25
    · rw [if_pos hcn]
    · rw [if_neg hcn]
      rcases h with h | h
      · exact absurd h hcn
      · rw [if_pos h]

/-- Witness for `C1_amended`: AI confidence 10 (below the 25 cutoff) with
no predictor yields no signal. -/
theorem C1_amended_witness :
    generate defaultParams "BTC/USDT" "1h" 200 (some 100) (some 2) [] [] []
      ⟨Dir.LONG, 10, { summary := "s" }⟩ false none 0 = none :=
  C1_amended defaultParams "BTC/USDT" "1h" 200 (some 100) (some 2) [] [] []
    ⟨Dir.LONG, 10, { summary := "s" }⟩ false none 0
    (Or.inl (by norm_num [blendConfidence]))

/-- C2 counterexample: on scenario `S1` the emitted LONG signal has
`take_profit_1 = 104.5 > take_profit_2 = 102` — the TP1 widening step broke
the ordering invariant and the plan was emitted anyway, not rejected. -/
theorem C2_counterexample :
    Option.map RawSignal.direction
      (generate defaultParams "BTC/USDT" "1h" 200 (some 100) (some 2) [] [101, 102, 103] []
        ⟨Dir.LONG, 50, { summary := "s" }⟩ false none 0) = some Dir.LONG ∧
    Option.map RawSignal.takeProfit1
      (generate defaultParams "BTC/USDT" "1h" 200 (some 100) (some 2) [] [101, 102, 103] []
        ⟨Dir.LONG, 50, { summary := "s" }⟩ false none 0) = some (209/2) ∧
    Option.map RawSignal.takeProfit2
      (generate defaultParams "BTC/USDT" "1h" 200 (some 100) (some 2) [] [101, 102, 103] []
        ⟨Dir.LONG, 50, { summary := "s" }⟩ false none 0) = some 102 ∧
    (102 : ℚ) < 209/2 := by
  rw [genEvalS1]
  refine ⟨rfl, rfl, rfl, by norm_num⟩

/-- C2 amended: every emitted signal satisfies the partial ordering
`stop_loss < entry < take_profit_1` for LONG and its mirror for SHORT; the
full chain `TP1 < TP2 < TP3` can be violated by the TP1 widening step and
is not checked anywhere before output. -/
theorem C2_amended (p : RiskParams) (asset tf : String) (dfLen : ℕ)
    (mc ma : Option ℚ) (sup res : List ℚ) (pats : List PatternResult)
    (ai : AIResult) (mlL : Bool) (mlD : Option Dir) (mlC : ℚ) (s : RawSignal)
    (hs : generate p asset tf dfLen mc ma sup res pats ai mlL mlD mlC = some s) :
    (s.direction = Dir.LONG → s.stopLoss < s.entryPrice ∧ s.entryPrice < s.takeProfit1) ∧
    (s.direction = Dir.SHORT → s.takeProfit1 < s.entryPrice ∧ s.entryPrice < s.stopLoss) := by
  obtain ⟨hpos, hentry, hdir, hconf, hsl, htp1⟩ :=
    generate_some_fields p asset tf dfLen mc ma sup res pats ai mlL mlD mlC s hs
  constructor
  · intro hL
    rw [hentry, hsl, htp1, hL]
    exact dynLong_bounds _ _ hpos _ _ _ _
  · intro hS
    rw [hentry, hsl, htp1, hS]
    have h := dynShort_bounds (mc.getD 0) (atrOf (mc.getD 0) ma) hpos sup res
      (extractZones pats).1 (extractZones pats).2
    exact ⟨h.1, h.2⟩

/-- Witness for `C2_amended` at scenario `S1`: the emitted LONG signal has
`97 < 100 < 104.5`. -/
theorem C2_amended_witness :
    sigS1.stopLoss < sigS1.entryPrice ∧ sigS1.entryPrice < sigS1.takeProfit1 :=
  (C2_amended defaultParams "BTC/USDT" "1h" 200 (some 100) (some 2) [] [101, 102, 103] []
    ⟨Dir.LONG, 50, { summary := "s" }⟩ false none 0 sigS1 genEvalS1).1 rfl

/-- C8: a NEUTRAL reasoning verdict is collapsed to LONG inside
`SignalGenerator.generate`: the run is indistinguishable from a LONG
verdict with the same confidence, and any emitted signal carries direction
LONG (with the LONG risk plan, by `generate_some_fields`). -/
theorem C8_neutral_collapse (p : RiskParams) (asset tf : String) (dfLen : ℕ)
    (mc ma : Option ℚ) (sup res : List ℚ) (pats : List PatternResult)
    (expl : Explanation) (conf : ℚ) (mlL : Bool) (mlD : Option Dir) (mlC : ℚ) :
    generate p asset tf dfLen mc ma sup res pats ⟨Dir.NEUTRAL, conf, expl⟩ mlL mlD mlC =
      generate p asset tf dfLen mc ma sup res pats ⟨Dir.LONG, conf, expl⟩ mlL mlD mlC ∧
    ∀ s, generate p asset tf dfLen mc ma sup res pats ⟨Dir.NEUTRAL, conf, expl⟩ mlL mlD mlC
        = some s → s.direction = Dir.LONG := by
  constructor
  · unfold generate
    simp only [reduceCtorEq, reduceIte, if_false, if_true]
  · intro s hs
    obtain ⟨-, -, hdir, -⟩ :=
      generate_some_fields p asset tf dfLen mc ma sup res pats
        ⟨Dir.NEUTRAL, conf, expl⟩ mlL mlD mlC s hs
    simpa using hdir

/-- Witness for `C8_neutral_collapse` on scenario `S2`: a NEUTRAL verdict
with confidence 50 yields a signal, and its direction is LONG. -/
theorem C8_neutral_collapse_witness :
    Option.map RawSignal.direction
      (generate defaultParams "A" "1h" 200 (some 100) (some 2) [] [] []
        ⟨Dir.NEUTRAL, 50, { summary := "s" }⟩ false none 0) = some Dir.LONG := by
  have h := (C8_neutral_collapse defaultParams "A" "1h" 200 (some 100) (some 2) [] [] []
    { summary := "s" } 50 false none 0).2 sigS2 genEvalS2
  rw [genEvalS2, Option.map_some', h]

theorem maxByConf_cons (s x : RawSignal) (xs : List RawSignal) :
    maxByConf s (x :: xs) =
      maxByConf (if s.confidenceScore < x.confidenceScore then x else s) xs :=
  rfl

theorem maxByConf_mem : ∀ (rest : List RawSignal) (s : RawSignal),
    maxByConf s rest ∈ s :: rest := by
  intro rest
  induction rest with
  | nil =>
    intro s
    simp [maxByConf]
  | cons x xs ih =>
    intro s
    rw [maxByConf_cons]
    rcases List.mem_cons.mp (ih (if s.confidenceScore < x.confidenceScore then x else s))
      with h | h
    · rw [h]
      split
      · exact List.mem_cons_of_mem _ (List.mem_cons_self _ _)
      · exact List.mem_cons_self _ _
    · exact List.mem_cons_of_mem _ (List.mem_cons_of_mem _ h)

theorem maxByConf_le : ∀ (rest : List RawSignal) (s : RawSignal),
    ∀ t ∈ s :: rest, t.confidenceScore ≤ (maxByConf s rest).confidenceScore := by
  intro rest
  induction rest with
  | nil =>
    intro s t ht
    rcases List.mem_cons.mp ht with rfl | h
    · exact le_refl _
    · simp at h
  | cons x xs ih =>
    intro s t ht
    rw [maxByConf_cons]
    set s2 := if s.confidenceScore < x.confidenceScore then x else s with hs2def
    have hss : s.confidenceScore ≤ s2.confidenceScore := by
      rw [hs2def]
      split
      case isTrue h => exact le_of_lt h
      case isFalse h => exact le_refl _
    have hxs : x.confidenceScore ≤ s2.confidenceScore := by
      rw [hs2def]
      split
      case isTrue h => exact le_refl _
      case isFalse h => exact le_of_not_lt h
    have hhead : s2.confidenceScore ≤ (maxByConf s2 xs).confidenceScore :=
      ih s2 s2 (List.mem_cons_self _ _)
    rcases List.mem_cons.mp ht with rfl | ht2
    · exact le_trans hss hhead
    · rcases List.mem_cons.mp ht2 with rfl | ht3
      · exact le_trans hxs hhead
      · exact ih s2 t (List.mem_cons_of_mem _ ht3)

/-- C4: per-asset consensus.  Grouping the surviving candidates by
direction: when at least three are LONG the output is the
highest-confidence LONG candidate (Python's `max`: the first maximal one),
annotated with exactly the timeframes of the LONG group; when fewer than
three are LONG but at least three are SHORT, symmetrically; with fewer
than three agreeing candidates the asset produces nothing. -/
theorem C4_consensus (sigs : List RawSignal) :
    (3 ≤ (sigs.filter (fun s => s.direction = Dir.LONG)).length →
      ∃ b, b ∈ sigs.filter (fun s => s.direction = Dir.LONG) ∧
        (∀ t ∈ sigs.filter (fun s => s.direction = Dir.LONG),
          t.confidenceScore ≤ b.confidenceScore) ∧
        aggregateAsset sigs =
          some (annotateBest b (sigs.filter (fun s => s.direction = Dir.LONG)))) ∧
    ((sigs.filter (fun s => s.direction = Dir.LONG)).length < 3 →
      3 ≤ (sigs.filter (fun s => s.direction = Dir.SHORT)).length →
      ∃ b, b ∈ sigs.filter (fun s => s.direction = Dir.SHORT) ∧
        (∀ t ∈ sigs.filter (fun s => s.direction = Dir.SHORT),
          t.confidenceScore ≤ b.confidenceScore) ∧
        aggregateAsset sigs =
          some (annotateBest b (sigs.filter (fun s => s.direction = Dir.SHORT)))) ∧
    ((sigs.filter (fun s => s.direction = Dir.LONG)).length < 3 →
      (sigs.filter (fun s => s.direction = Dir.SHORT)).length < 3 →
      aggregateAsset sigs = none) := by
  refine ⟨?_, ?_, ?_⟩
  · intro h3
    cases hL : sigs.filter (fun s => s.direction = Dir.LONG) with
    | nil => rw [hL] at h3; simp at h3
    | cons s rest =>
      have hne : sigs.isEmpty = false := by
        have hmem : s ∈ sigs := (List.mem_filter.mp (hL ▸ List.mem_cons_self s rest)).1
        cases sigs
        · simp at hmem
        · rfl
      refine ⟨maxByConf s rest, hL ▸ maxByConf_mem rest s, ?_, ?_⟩
      · intro t ht
        exact maxByConf_le rest s t (hL ▸ ht)
      · simp only [aggregateAsset, hne, Bool.false_eq_true, if_false, hL]
        rw [if_pos (hL ▸ h3)]
  · intro hlt h3
    cases hS : sigs.filter (fun s => s.direction = Dir.SHORT) with
    | nil => rw [hS] at h3; simp at h3
    | cons s rest =>
      have hne : sigs.isEmpty = false := by
        have hmem : s ∈ sigs := (List.mem_filter.mp (hS ▸ List.mem_cons_self s rest)).1
        cases sigs
        · simp at hmem
        · rfl
      refine ⟨maxByConf s rest, hS ▸ maxByConf_mem rest s, ?_, ?_⟩
      · intro t ht
        exact maxByConf_le rest s t (hS ▸ ht)
      · simp only [aggregateAsset, hne, Bool.false_eq_true, if_false, hS]
        rw [if_neg (by omega), if_pos (hS ▸ h3)]
  · intro hltL hltS
    by_cases hne : sigs.isEmpty
    · simp only [aggregateAsset, hne, if_true]
    · simp only [aggregateAsset, eq_false_of_ne_true hne, Bool.false_eq_true, if_false]
      rw [if_neg (by omega), if_neg (by omega)]

/-- Witness for `C4_consensus`: three LONG candidates (confidences
60, 80, 70 on 1h/2h/1d) against one SHORT (confidence 90 on 4h) produce
one output; its confidence is that of the best LONG candidate. -/
theorem C4_consensus_witness :
    Option.map RawSignal.confidenceScore
      (aggregateAsset [demoSignal "1h" Dir.LONG 60, demoSignal "2h" Dir.LONG 80,
        demoSignal "4h" Dir.SHORT 90, demoSignal "1d" Dir.LONG 70]) = some 80 := by
  obtain ⟨b, hmem, hmax, heq⟩ :=
    (C4_consensus [demoSignal "1h" Dir.LONG 60, demoSignal "2h" Dir.LONG 80,
      demoSignal "4h" Dir.SHORT 90, demoSignal "1d" Dir.LONG 70]).1 (by decide)
  have hfil : ([demoSignal "1h" Dir.LONG 60, demoSignal "2h" Dir.LONG 80,
      demoSignal "4h" Dir.SHORT 90, demoSignal "1d" Dir.LONG 70].filter
        (fun s => s.direction = Dir.LONG)) =
      [demoSignal "1h" Dir.LONG 60, demoSignal "2h" Dir.LONG 80,
        demoSignal "1d" Dir.LONG 70] := by
    simp [demoSignal, List.filter]
  rw [hfil] at hmem hmax heq
  have h80 := hmax (demoSignal "2h" Dir.LONG 80) (by simp)
  simp only [List.mem_cons, List.not_mem_nil, or_false] at hmem
  rcases hmem with hb | hb | hb
  · exfalso
    rw [hb] at h80
    norm_num [demoSignal] at h80
  · rw [heq, hb]
    rfl
  · exfalso
    rw [hb] at h80
    norm_num [demoSignal] at h80

/-- C9 counterexample: on the classifier's prediction path the encoder is
constructed with `normalize=False`, so an RSI of 80 and a volume ratio of 9
pass through raw — not rescaled to `(80-50)/50 = 0.6` and
`min(3, 9)/3 = 1` as the claim states. -/
theorem C9_counterexample :
    (predictorFeatures (fun _ => 0)
      [{}, { rsi := some 80, volRat := some 9 }] none).get? 0 = some 80 ∧
    (predictorFeatures (fun _ => 0)
      [{}, { rsi := some 80, volRat := some 9 }] none).get? 10 = some 9 ∧
    ¬ ((80 : ℚ) = (80 - 50) / 50) ∧ ¬ ((9 : ℚ) = min 3 (max 0 9) / 3) := by
  refine ⟨?_, ?_, by norm_num, by norm_num⟩ <;>
    norm_num [predictorFeatures, buildFromDf, encodeCol]

/-- C9 amended: the first 13 features are the per-column encodings of the
last row, where a missing value becomes 0 for any setting of `normalize`;
the RSI and volume-ratio rescalings are implemented in the encoder but
applied only when `normalize` is true, and the prediction path
(`MLPredictor`, which constructs `FeatureBuilder(normalize=False)`) passes
raw values through, delegating scaling to the saved scaler object. -/
theorem C9_amended (log : ℚ → ℚ) (b : Bool) (df : List IndRow) (row : IndRow)
    (pats : Option (List String)) (hdf : df ≠ []) :
    (buildFromDf log b (df ++ [row]) pats).take 13 =
      [encodeCol b "rsi" row.rsi,
       encodeCol b "macd" row.macd,
       encodeCol b "macd_signal" row.macdSignal,
       encodeCol b "macd_histogram" row.macdHistogram,
       encodeCol b "ema_9" row.ema9,
       encodeCol b "ema_21" row.ema21,
       encodeCol b "ema_50" row.ema50,
       encodeCol b "sma_20" row.sma20,
       encodeCol b "sma_50" row.sma50,
       encodeCol b "atr" row.atr,
       encodeCol b "volume_ratio" row.volRat,
       encodeCol b "close" row.close,
       encodeCol b "volume" row.volume] ∧
    (∀ col : String, encodeCol b col none = 0) ∧
    (∀ x : ℚ, encodeCol true "rsi" (some x) = (x - 50) / 50) ∧
    (∀ x : ℚ, encodeCol true "volume_ratio" (some x) = min 3 (max 0 x) / 3) ∧
    (∀ x : ℚ, encodeCol false "rsi" (some x) = x) ∧
    (∀ x : ℚ, encodeCol false "volume_ratio" (some x) = x) ∧
    predictorFeatures log (df ++ [row]) pats = buildFromDf log false (df ++ [row]) pats := by
  refine ⟨?_, fun col => rfl, fun x => by simp [encodeCol], fun x => by simp [encodeCol],
    fun x => by simp [encodeCol], fun x => by simp [encodeCol], rfl⟩
  unfold buildFromDf
  have hlen : 0 < df.length := List.length_pos.mpr hdf
  rw [if_neg (by simp; omega)]
  have hlast : (df ++ [row]).getLast?.getD default = row := by
    simp [List.getLast?_concat]
  rw [hlast]
  rw [List.append_assoc, List.take_left' (by rfl)]

/-- Witness for `C9_amended`: a two-row frame whose last row has RSI 80 and
volume ratio 9 and everything else missing, on both encoder settings. -/
theorem C9_amended_witness :
    (buildFromDf (fun _ => 0) true ([({} : IndRow)] ++ [{ rsi := some 80, volRat := some 9 }])
        none).take 13 =
      [encodeCol true "rsi" (some 80), encodeCol true "macd" none,
       encodeCol true "macd_signal" none, encodeCol true "macd_histogram" none,
       encodeCol true "ema_9" none, encodeCol true "ema_21" none,
       encodeCol true "ema_50" none, encodeCol true "sma_20" none,
       encodeCol true "sma_50" none, encodeCol true "atr" none,
       encodeCol true "volume_ratio" (some 9), encodeCol true "close" none,
       encodeCol true "volume" none] ∧
    (∀ col : String, encodeCol true col none = 0) ∧
    (∀ x : ℚ, encodeCol true "rsi" (some x) = (x - 50) / 50) ∧
    (∀ x : ℚ, encodeCol true "volume_ratio" (some x) = min 3 (max 0 x) / 3) ∧
    (∀ x : ℚ, encodeCol false "rsi" (some x) = x) ∧
    (∀ x : ℚ, encodeCol false "volume_ratio" (some x) = x) ∧
    predictorFeatures (fun _ => 0) ([({} : IndRow)] ++ [{ rsi := some 80, volRat := some 9 }]) none =
      buildFromDf (fun _ => 0) false ([({} : IndRow)] ++ [{ rsi := some 80, volRat := some 9 }]) none :=
  C9_amended (fun _ => 0) true [({} : IndRow)] { rsi := some 80, volRat := some 9 } none
    (by simp)

end Corvino
